import Mathlib

/-!
Shallow embedding of the Mirage emotion engine
(`src/agent/emotion/emotion_config.py`, `src/agent/emotion/detector.py`,
`src/agent/emotion/personality_adapter.py`).

Modelling conventions:
* Python floats holding confidences, intensities, valence and arousal are
  modelled as `ℚ` (fractional constants written with `mkRat`); timestamps
  from `time.time()` and the integer config intervals/TTLs are modelled as
  `ℤ` (the claims only subtract and compare instants, so an integral clock
  loses nothing).
* Python dicts holding emotion results are modelled as structures; dicts
  used as maps (the cache, the per-emotion counters) are association lists
  with insertion-order append semantics, mirroring CPython dict ordering.
* The remote Gemini call is modelled as an oracle value: either it raises,
  or it yields a response whose JSON-parse outcome is represented by
  `RemoteResponse` (`unparseable` covers both a `json.loads` failure after
  markdown stripping and any other exception inside `_parse_response`;
  `parsed` carries the three fields the code reads, each abstracted to
  exactly the distinctions `float(...)` / the category-membership test make).
* `time.time()` within one call of `detect_emotion` is modelled as a single
  instant `now`; `datetime.utcnow().isoformat()` as an opaque string.
* The cache key `str(hash(text.lower().strip()))` is modelled by the
  normalized text itself (`hash` is deterministic within one process and
  injective up to collisions, which no claim depends on).
-/

namespace Mirage

/-! ## emotion_config.py -/

/-- The 8 emotion categories (`EMOTION_CATEGORIES`). -/
def EMOTION_CATEGORIES : List String :=
  ["happy", "sad", "angry", "anxious", "neutral", "excited", "confused", "frustrated"]

/-- A valence/arousal pair from the circumplex table. -/
structure VA where
  valence : ℚ
  arousal : ℚ
deriving DecidableEq, Repr

/-- `EMOTION_VALENCE_AROUSAL` from emotion_config.py. -/
def EMOTION_VALENCE_AROUSAL : List (String × VA) :=
  [("happy", ⟨mkRat 8 10, mkRat 6 10⟩),
   ("excited", ⟨mkRat 9 10, mkRat 9 10⟩),
   ("sad", ⟨mkRat (-7) 10, mkRat 3 10⟩),
   ("anxious", ⟨mkRat (-5) 10, mkRat 8 10⟩),
   ("angry", ⟨mkRat (-8) 10, mkRat 9 10⟩),
   ("frustrated", ⟨mkRat (-6) 10, mkRat 7 10⟩),
   ("confused", ⟨mkRat (-3) 10, mkRat 5 10⟩),
   ("neutral", ⟨0, mkRat 5 10⟩)]

/-- `get_valence_arousal`: table lookup defaulting to neutral's values. -/
def get_valence_arousal (emotion : String) : VA :=
  (EMOTION_VALENCE_AROUSAL.lookup emotion).getD ⟨0, mkRat 5 10⟩

/-- `is_valid_emotion`: membership in the 8 categories. -/
def is_valid_emotion (emotion : String) : Bool :=
  EMOTION_CATEGORIES.contains emotion

/-! ## detector.py: result dictionaries and the remote oracle -/

/-- The emotion-result dictionary built by `_parse_response` /
`_get_neutral_emotion`. -/
structure EmotionResult where
  emotion : String
  confidence : ℚ
  intensity : ℚ
  valence : ℚ
  arousal : ℚ
  detected_at : String
deriving DecidableEq, Repr

/-- `_get_neutral_emotion`: the canonical neutral fallback dictionary. -/
def getNeutralEmotion (nowIso : String) : EmotionResult :=
  { emotion := "neutral", confidence := 1, intensity := mkRat 1 2,
    valence := 0, arousal := mkRat 1 2, detected_at := nowIso }

/-- A JSON value sitting under the `"emotion"` key, abstracted to what the
code observes: a string, or a non-string (which fails the category test). -/
inductive StrField where
  | str (s : String)
  | nonString
deriving DecidableEq, Repr

/-- A JSON value under `"confidence"`/`"intensity"`, abstracted to what
`float(...)` observes: coercible to a number, or raising `ValueError`. -/
inductive NumField where
  | num (q : ℚ)
  | notCoercible
deriving DecidableEq, Repr

/-- The fields `_parse_response` reads from the decoded JSON object
(`data.get("emotion")`, `data.get("confidence")`, `data.get("intensity")`);
`none` models an absent key. -/
structure ParsedData where
  emotion : Option StrField
  confidence : Option NumField
  intensity : Option NumField
deriving DecidableEq, Repr

/-- Outcome of stripping markdown fences and running `json.loads` on the
remote response text. -/
inductive RemoteResponse where
  | unparseable
  | parsed (d : ParsedData)
deriving DecidableEq, Repr

/-- Outcome of the remote Gemini call itself (`_analyze_with_gemini` up to
`response.text`): it may raise (network error, timeout) or return text. -/
inductive RemoteOutcome where
  | exn
  | ok (r : RemoteResponse)
deriving DecidableEq, Repr

/-- The label-validation step of `_parse_response`:
`emotion = data.get("emotion", "neutral")` followed by
`if not is_valid_emotion(emotion): emotion = "neutral"` (a non-string
value never equals a category string, so it also validates to neutral). -/
def validatedLabel (d : ParsedData) : String :=
  match d.emotion.getD (.str "neutral") with
  | .str s => if is_valid_emotion s then s else "neutral"
  | .nonString => "neutral"

/-- `_parse_response`: validate the label (`validatedLabel`), coerce
confidence/intensity with `float(...)` (defaults 0.5; a coercion failure
raises inside the `try` block, yielding the neutral fallback), and look up
valence/arousal for the validated label. Label validation cannot raise,
so hoisting it into the coercion-success branch preserves the source's
behaviour. No clamping is performed on confidence or intensity. -/
def parseResponse (r : RemoteResponse) (nowIso : String) : EmotionResult :=
  match r with
  | .unparseable => getNeutralEmotion nowIso
  | .parsed d =>
    match d.confidence.getD (.num (mkRat 1 2)), d.intensity.getD (.num (mkRat 1 2)) with
    | .num c, .num i =>
      let va := get_valence_arousal (validatedLabel d)
      { emotion := validatedLabel d, confidence := c, intensity := i,
        valence := va.valence, arousal := va.arousal, detected_at := nowIso }
    | _, _ => getNeutralEmotion nowIso

/-! ## detector.py: RateLimiter -/

/-- `RateLimiter` state: `max_calls`, `time_window`, and the list of
recorded call timestamps. -/
structure RateLimiter where
  max_calls : Nat
  time_window : ℤ
  calls : List ℤ
deriving DecidableEq, Repr

/-- `RateLimiter.can_call`: prune timestamps outside the window
(`self.calls = [t for t in self.calls if now - t < window]`), then compare
the remaining count against `max_calls`. Returns the decision and the
limiter state after the prune. -/
def RateLimiter.can_call (r : RateLimiter) (now : ℤ) : Bool × RateLimiter :=
  let calls2 := r.calls.filter (fun t => now - t < r.time_window)
  (decide (calls2.length < r.max_calls), { r with calls := calls2 })

/-- `RateLimiter.record_call`: append the current timestamp. -/
def RateLimiter.record_call (r : RateLimiter) (now : ℤ) : RateLimiter :=
  { r with calls := r.calls ++ [now] }

/-! ## detector.py: EmotionCache -/

/-- One cache slot: key, stored emotion dictionary, insertion timestamp. -/
abbrev CacheEntry := String × EmotionResult × ℤ

/-- `EmotionCache.get`: `None` on a missing key; on a present key, delete
and miss when the age strictly exceeds the TTL, otherwise return the stored
result. Returns the (possibly shrunk) cache alongside. -/
def cacheGet (cache : List CacheEntry) (key : String) (now ttl : ℤ) :
    Option EmotionResult × List CacheEntry :=
  match cache.lookup key with
  | none => (none, cache)
  | some (em, ts) =>
    if now - ts > ttl then (none, cache.filter (fun p => p.1 ≠ key))
    else (some em, cache)

/-- `EmotionCache.set`: overwrite an existing key in place or append a new
entry, recording the insertion time. -/
def cacheSet (cache : List CacheEntry) (key : String) (em : EmotionResult) (now : ℤ) :
    List CacheEntry :=
  if cache.any (fun p => p.1 = key) then
    cache.map (fun p => if p.1 = key then (key, em, now) else p)
  else
    cache ++ [(key, em, now)]

/-! ## detector.py: EmotionDetector -/

/-- `EmotionDetector` state: whether a Gemini client was configured,
the rate limiter, the cache and its TTL, the debounce interval, the time
of the last successful analysis, and the last known emotion result. -/
structure DetectorState where
  client : Bool
  rate_limiter : RateLimiter
  cache : List CacheEntry
  cache_ttl : ℤ
  min_analysis_interval : ℤ
  last_analysis_time : ℤ
  last_emotion : EmotionResult
deriving DecidableEq, Repr

/-- The cache key `str(hash(text.lower().strip()))`, modelled by the
normalized text (see the header comment): `.lower()` then `.strip()`,
written out character-wise. -/
def normKey (text : String) : String :=
  String.mk
    ((((text.data.map Char.toLower).dropWhile Char.isWhitespace).reverse.dropWhile
      Char.isWhitespace).reverse)

/-- `EmotionDetector.detect_emotion`: debounce unless forced; cache lookup
(lazy eviction); rate-limit admission (with prune); unconfigured client
yields a fresh neutral result; otherwise consult the remote oracle — on an
exception return the last known result, on a response parse it, record the
call, update the last-known result and analysis time, and cache it. -/
def detect_emotion (s : DetectorState) (text : String) (force : Bool)
    (now : ℤ) (remote : RemoteOutcome) (nowIso : String) :
    EmotionResult × DetectorState :=
  if ¬force ∧ now - s.last_analysis_time < s.min_analysis_interval then
    (s.last_emotion, s)
  else
    let key := normKey text
    let hit := cacheGet s.cache key now s.cache_ttl
    let s1 := { s with cache := hit.2 }
    match hit.1 with
    | some em => (em, s1)
    | none =>
      let adm := s1.rate_limiter.can_call now
      let s2 := { s1 with rate_limiter := adm.2 }
      if ¬adm.1 then (s2.last_emotion, s2)
      else if ¬s2.client then (getNeutralEmotion nowIso, s2)
      else
        match remote with
        | .exn => (s2.last_emotion, s2)
        | .ok resp =>
          let result := parseResponse resp nowIso
          let s3 := { s2 with
            rate_limiter := s2.rate_limiter.record_call now,
            last_analysis_time := now,
            last_emotion := result,
            cache := cacheSet s2.cache key result now }
          (result, s3)

/-! ## personality_adapter.py: the adaptation table -/

/-- `EMOTION_ADAPTATIONS`: persona × label instruction modifiers
(insertion-ordered nested dicts as association lists). -/
def EMOTION_ADAPTATIONS : List (String × List (String × String)) :=
  [("teacher",
    [("happy", "\nThe user seems happy and engaged! Match their positive energy:\n- Celebrate their enthusiasm\n- Build on their momentum\n- Use encouraging language\n- Keep the pace upbeat\n"),
     ("excited", "\nThe user is very excited! Channel that energy:\n- Share in their excitement\n- Keep explanations dynamic and engaging\n- Use vivid examples\n- Maintain high energy in your responses\n"),
     ("confused", "\nThe user seems confused. Adjust your teaching approach:\n- Slow down and break concepts into smaller steps\n- Use simpler language and more examples\n- Check for understanding frequently\n- Be patient and reassuring\n- Offer to explain in a different way\n"),
     ("frustrated", "\nThe user appears frustrated. Provide extra support:\n- Acknowledge that this is challenging\n- Break the problem down into manageable pieces\n- Offer encouragement and remind them of progress\n- Suggest taking a different approach\n- Be patient and supportive\n"),
     ("anxious", "\nThe user seems anxious. Create a calm, supportive environment:\n- Use reassuring language\n- Emphasize that mistakes are part of learning\n- Go at a comfortable pace\n- Provide clear, structured guidance\n- Celebrate small wins\n"),
     ("sad", "\nThe user seems down. Be empathetic and supportive:\n- Show understanding and compassion\n- Keep tone gentle and encouraging\n- Focus on achievable goals\n- Remind them of their capabilities\n- Offer positive reinforcement\n"),
     ("angry", "\nThe user seems upset. Stay calm and professional:\n- Remain patient and understanding\n- Acknowledge their feelings\n- Focus on problem-solving\n- Keep responses clear and helpful\n- Don't take it personally\n"),
     ("neutral", "\nThe user has a neutral emotional state. Maintain your standard approach:\n- Be clear and informative\n- Stay engaged and helpful\n- Adapt as their emotional state changes\n")]),
   ("consultant",
    [("happy", "The client is positive. Leverage this momentum to explore opportunities and make progress."),
     ("excited", "The client is enthusiastic. Channel this energy into actionable next steps."),
     ("confused", "The client needs clarity. Slow down, simplify your points, and ensure understanding before proceeding."),
     ("frustrated", "The client is frustrated. Acknowledge the challenge, break it down, and focus on practical solutions."),
     ("anxious", "The client is concerned. Provide reassurance, clear frameworks, and reduce uncertainty."),
     ("sad", "The client seems discouraged. Be empathetic, focus on wins, and rebuild confidence."),
     ("angry", "The client is upset. Stay professional, listen carefully, and focus on resolving the issue."),
     ("neutral", "Maintain professional, strategic guidance.")]),
   ("coach",
    [("happy", "The person is in a positive state! Amplify this energy and help them set ambitious goals."),
     ("excited", "They're fired up! Help them channel this excitement into concrete action plans."),
     ("confused", "They're uncertain. Help them gain clarity through powerful questions and reflection."),
     ("frustrated", "They're struggling. Acknowledge their effort, reframe the challenge, and find a new angle."),
     ("anxious", "They're worried. Create safety, validate their feelings, and help them find their center."),
     ("sad", "They're feeling low. Hold space for their emotions, remind them of their strength, and find small steps forward."),
     ("angry", "They're upset. Let them express it, validate the emotion, then guide toward constructive action."),
     ("neutral", "Meet them where they are and help them explore what's next.")]),
   ("friend",
    [("happy", "They're happy! Share in their joy and keep the good vibes going."),
     ("excited", "They're pumped! Match their energy and have fun with it."),
     ("confused", "They're not sure about something. Help them think it through in a relaxed way."),
     ("frustrated", "They're annoyed. Be understanding and help them vent or find a solution."),
     ("anxious", "They're stressed. Be a calming presence and supportive friend."),
     ("sad", "They're down. Be there for them, listen, and offer comfort."),
     ("angry", "They're mad. Let them express it and be supportive without judgment."),
     ("neutral", "Just have a good, natural conversation.")])]

/-! ## personality_adapter.py: PersonalityAdapter -/

/-- One entry of `self.emotion_history`: the dict
`{"emotion": ..., "confidence": ..., "timestamp": ...}`. -/
structure HistEntry where
  emotion : String
  confidence : ℚ
  timestamp : Option String
deriving DecidableEq, Repr

/-- `PersonalityAdapter` state: agent type, current emotion, history. -/
structure AdapterState where
  agent_type : String
  current_emotion : String
  emotion_history : List HistEntry
deriving DecidableEq, Repr

/-- `PersonalityAdapter.__init__`. -/
def initAdapter (agent_type : String) : AdapterState :=
  { agent_type := agent_type, current_emotion := "neutral", emotion_history := [] }

/-- The fields `adapt_instructions` reads from its `emotion_data` dict
(`.get("emotion", "neutral")`, `.get("confidence", 0.0)`,
`.get("detected_at")`); `none` models an absent key. -/
structure EmotionData where
  emotion : Option String
  confidence : Option ℚ
  detected_at : Option String
deriving DecidableEq, Repr

/-- `PersonalityAdapter._get_adaptation`: nested dict lookup with empty
fallback for an unknown agent type. -/
def getAdaptation (agent_type emotion : String) : Option String :=
  ((EMOTION_ADAPTATIONS.lookup agent_type).getD []).lookup emotion

/-- Round-half-to-even of a rational, modelling how Python's `"%.0%"`
float formatting rounds the percentage. -/
def roundHalfEven (x : ℚ) : ℤ :=
  let f := ⌊x⌋
  if x - f < mkRat 1 2 then f
  else if x - f > mkRat 1 2 then f + 1
  else if f % 2 = 0 then f else f + 1

/-- `f"{confidence:.0%}"`: the confidence times 100, rounded to an
integer, with a percent sign. -/
def formatPercent0 (q : ℚ) : String :=
  toString (roundHalfEven (q * 100)) ++ "%"

/-- The adapted-instructions f-string of `adapt_instructions`:
base instructions, the upper-cased label, the confidence percentage, and
the adaptation template, in the exact literal frame of the source. -/
def buildAdapted (base_instructions emotion : String) (confidence : ℚ)
    (adaptation : String) : String :=
  base_instructions ++
    "\n\nCURRENT USER EMOTIONAL STATE: " ++ emotion.toUpper ++
    " (confidence: " ++ formatPercent0 confidence ++
    ")\n\nADAPT YOUR RESPONSE ACCORDINGLY:\n" ++ adaptation ++
    "\n\nRemember to maintain your core personality while being sensitive to the user's emotional state.\n"

/-- `PersonalityAdapter.adapt_instructions`: below the confidence threshold
return the base instructions with no state change; otherwise set
`current_emotion`, append to `emotion_history` (keeping the last 10), and
append the adaptation block when the persona × label template exists and is
non-empty (the source tests the template with `if not adaptation`). -/
def adapt_instructions (s : AdapterState) (base_instructions : String)
    (emotion_data : EmotionData) (confidence_threshold : ℚ) :
    String × AdapterState :=
  let emotion := emotion_data.emotion.getD "neutral"
  let confidence := emotion_data.confidence.getD 0
  if confidence < confidence_threshold then
    (base_instructions, s)
  else
    let hist1 := s.emotion_history ++
      [{ emotion := emotion, confidence := confidence,
         timestamp := emotion_data.detected_at }]
    let hist2 := if hist1.length > 10 then hist1.drop (hist1.length - 10) else hist1
    let s1 := { s with current_emotion := emotion, emotion_history := hist2 }
    let adaptation := (getAdaptation s.agent_type emotion).getD ""
    if adaptation = "" then (base_instructions, s1)
    else (buildAdapted base_instructions emotion confidence adaptation, s1)

/-- The Python slice `l[-n:]`: the `n` most recent entries. -/
def lastN (n : Nat) (l : List α) : List α :=
  l.drop (l.length - n)

/-- One step of building the `emotion_counts` dict:
`emotion_counts[emotion] = emotion_counts.get(emotion, 0) + 1` with CPython
insertion-order semantics. -/
def insertCount (m : List (String × Nat)) (e : String) : List (String × Nat) :=
  if m.any (fun p => p.1 = e) then
    m.map (fun p => if p.1 = e then (p.1, p.2 + 1) else p)
  else
    m ++ [(e, 1)]

/-- The `emotion_counts` dict built over a label list. -/
def emotionCounts (l : List String) : List (String × Nat) :=
  l.foldl insertCount []

/-- `max(emotion_counts, key=emotion_counts.get)`: the first key (in dict
insertion order) whose count no later key strictly exceeds. -/
def maxByCount : List (String × Nat) → Option (String × Nat)
  | [] => none
  | p :: rest =>
    some (rest.foldl (fun best q => if q.2 > best.2 then q else best) p)

/-- `PersonalityAdapter.get_dominant_emotion`: neutral on empty history,
otherwise the most common label among the last 5 entries. -/
def get_dominant_emotion (s : AdapterState) : String :=
  if s.emotion_history = [] then "neutral"
  else
    match maxByCount (emotionCounts ((lastN 5 s.emotion_history).map (·.emotion))) with
    | some p => p.1
    | none => "neutral"

/-- The fixed negative-emotion set of `should_check_in`. -/
def negativeEmotions : List String :=
  ["sad", "frustrated", "angry", "anxious"]

/-- `PersonalityAdapter.should_check_in`: false with fewer than 3 history
entries, else whether the last 3 labels are all negative. -/
def should_check_in (s : AdapterState) : Bool :=
  if s.emotion_history.length < 3 then false
  else
    ((lastN 3 s.emotion_history).map (·.emotion)).all
      (fun e => negativeEmotions.contains e)

/-- A trace of `adapt_instructions` calls (base instructions, emotion
data, confidence threshold), folded over an adapter state — the
session-level usage pattern of `PersonalityAdapter`. -/
def applyCalls (s : AdapterState) (calls : List (String × EmotionData × ℚ)) :
    AdapterState :=
  calls.foldl (fun st c => (adapt_instructions st c.1 c.2.1 c.2.2).2) s

/-! ## Validity predicates and concrete fixtures -/

/-- A result dictionary carries one of the 8 valid emotion labels. -/
def validResult (r : EmotionResult) : Prop :=
  r.emotion ∈ EMOTION_CATEGORIES

instance (r : EmotionResult) : Decidable (validResult r) := by
  unfold validResult; infer_instance

/-- Detector-state invariant: the last known result and every cached result
carry valid labels. It holds for the initial state and is preserved by
`detect_emotion` (proved below), so it characterizes the reachable states. -/
def validState (s : DetectorState) : Prop :=
  validResult s.last_emotion ∧ ∀ e ∈ s.cache, validResult e.2.1

instance (s : DetectorState) : Decidable (validState s) := by
  unfold validState; infer_instance

/-- A concrete non-neutral result used by the counterexamples. -/
def happyResult : EmotionResult :=
  { emotion := "happy", confidence := mkRat 9 10, intensity := mkRat 7 10,
    valence := mkRat 8 10, arousal := mkRat 6 10, detected_at := "t0" }

/-- A concrete history entry used by the examples. -/
def hEntry (e : String) : HistEntry :=
  { emotion := e, confidence := mkRat 8 10, timestamp := none }

/-! ## Helper lemmas -/

theorem lookup_mem {β : Type} {k : String} {v : β} {l : List (String × β)}
    (h : l.lookup k = some v) : (k, v) ∈ l := by
  induction l with
  | nil => simp [List.lookup] at h
  | cons p t ih =>
    obtain ⟨a, b⟩ := p
    rw [List.lookup] at h
    by_cases hk : k = a
    · subst hk
      simp only [beq_self_eq_true] at h
      cases h
      exact List.mem_cons_self _ _
    · have hb : (k == a) = false := by simpa using hk
      rw [hb] at h
      exact List.mem_cons_of_mem _ (ih h)

theorem is_valid_emotion_mem {s : String} (h : is_valid_emotion s = true) :
    s ∈ EMOTION_CATEGORIES := by
  simpa [is_valid_emotion, List.elem_iff] using h

theorem validatedLabel_mem (d : ParsedData) :
    validatedLabel d ∈ EMOTION_CATEGORIES := by
  rcases he : d.emotion.getD (.str "neutral") with s | _
  · by_cases hv : is_valid_emotion s = true
    · simp only [validatedLabel, he, if_pos hv]
      exact is_valid_emotion_mem hv
    · simp only [validatedLabel, he, if_neg hv]
      decide
  · simp only [validatedLabel, he]
    decide

theorem validResult_getNeutralEmotion (iso : String) :
    validResult (getNeutralEmotion iso) := by
  simp only [validResult, getNeutralEmotion]
  decide

theorem validResult_parseResponse (r : RemoteResponse) (iso : String) :
    validResult (parseResponse r iso) := by
  rcases r with _ | d
  · exact validResult_getNeutralEmotion iso
  · rcases hc : d.confidence.getD (.num (mkRat 1 2)) with c | _
    · rcases hi : d.intensity.getD (.num (mkRat 1 2)) with i | _
      · simp only [parseResponse, hc, hi, validResult]
        exact validatedLabel_mem d
      · simp only [parseResponse, hc, hi]
        exact validResult_getNeutralEmotion iso
    · simp only [parseResponse, hc]
      exact validResult_getNeutralEmotion iso

theorem cacheGet_some_mem {c : List CacheEntry} {k : String} {now ttl : ℤ}
    {em : EmotionResult} (h : (cacheGet c k now ttl).1 = some em) :
    ∃ ts, (k, em, ts) ∈ c := by
  rcases hl : c.lookup k with _ | ⟨em2, ts⟩
  · simp only [cacheGet, hl] at h
    exact Option.noConfusion h
  · simp only [cacheGet, hl] at h
    by_cases hexp : now - ts > ttl
    · rw [if_pos hexp] at h
      simp at h
    · rw [if_neg hexp] at h
      simp only [Option.some.injEq] at h
      subst h
      exact ⟨ts, lookup_mem hl⟩

theorem cacheGet_mem_of_mem {c : List CacheEntry} {k : String} {now ttl : ℤ}
    {e : CacheEntry} (h : e ∈ (cacheGet c k now ttl).2) : e ∈ c := by
  rcases hl : c.lookup k with _ | ⟨em2, ts⟩
  · simpa only [cacheGet, hl] using h
  · simp only [cacheGet, hl] at h
    split at h
    · exact (List.mem_filter.mp h).1
    · exact h

theorem cacheSet_mem {c : List CacheEntry} {k : String} {em : EmotionResult}
    {now : ℤ} {e : CacheEntry} (h : e ∈ cacheSet c k em now) :
    e ∈ c ∨ e.2.1 = em := by
  unfold cacheSet at h
  split at h
  · rcases List.mem_map.mp h with ⟨p, hp, hpe⟩
    by_cases hk : p.1 = k
    · rw [if_pos hk] at hpe
      right
      rw [← hpe]
    · rw [if_neg hk] at hpe
      left
      rw [← hpe]
      exact hp
  · rcases List.mem_append.mp h with h1 | h1
    · exact Or.inl h1
    · right
      rcases List.mem_singleton.mp h1 with rfl
      rfl

/-! ## Helper lemmas for the dominant-emotion vote (C7) -/

/-- The key list of the `emotion_counts` dict in CPython insertion order:
the labels of `l` in order of first encounter. -/
def insKeys (l : List String) : List String :=
  l.foldl (fun ks e => if e ∈ ks then ks else ks ++ [e]) []

/-- The fold performed by `max(emotion_counts, key=emotion_counts.get)`
expressed on the key list alone: keep the current best, replacing it only
when a later key has a strictly greater count. -/
def pickFirstMax (cnt : String → Nat) (k0 : String) (ks : List String) : String :=
  ks.foldl (fun best k => if cnt k > cnt best then k else best) k0

theorem insKeys_append (l : List String) (e : String) :
    insKeys (l ++ [e]) =
      if e ∈ insKeys l then insKeys l else insKeys l ++ [e] := by
  unfold insKeys
  rw [List.foldl_append]
  rfl

theorem mem_insKeys (a : String) :
    ∀ l : List String, a ∈ insKeys l ↔ a ∈ l := by
  intro l
  induction l using List.reverseRecOn with
  | nil => simp [insKeys]
  | append_singleton l e ih =>
    rw [insKeys_append]
    by_cases he : e ∈ insKeys l
    · rw [if_pos he]
      rw [ih]
      constructor
      · intro ha
        exact List.mem_append.mpr (Or.inl ha)
      · intro ha
        rcases List.mem_append.mp ha with h1 | h1
        · exact h1
        · rcases List.mem_singleton.mp h1 with rfl
          exact ih.mp he
    · rw [if_neg he]
      constructor
      · intro ha
        rcases List.mem_append.mp ha with h1 | h1
        · exact List.mem_append.mpr (Or.inl (ih.mp h1))
        · exact List.mem_append.mpr (Or.inr h1)
      · intro ha
        rcases List.mem_append.mp ha with h1 | h1
        · exact List.mem_append.mpr (Or.inl (ih.mpr h1))
        · exact List.mem_append.mpr (Or.inr h1)

theorem emotionCounts_eq (l : List String) :
    emotionCounts l = (insKeys l).map (fun k => (k, l.count k)) := by
  induction l using List.reverseRecOn with
  | nil => rfl
  | append_singleton l e ih =>
    have hstep : emotionCounts (l ++ [e]) = insertCount (emotionCounts l) e := by
      unfold emotionCounts
      rw [List.foldl_append]
      rfl
    rw [hstep, ih, insKeys_append, insertCount]
    by_cases he : e ∈ insKeys l
    · have hel : e ∈ l := (mem_insKeys e l).mp he
      have hany : ((insKeys l).map (fun k => (k, l.count k))).any
          (fun p => p.1 = e) = true := by
        rw [List.any_eq_true]
        exact ⟨(e, l.count e), List.mem_map.mpr ⟨e, he, rfl⟩, by simp⟩
      rw [if_pos hany, if_pos he, List.map_map]
      apply List.map_congr_left
      intro k _
      by_cases hk : k = e
      · subst hk
        simp [List.count_append]
      · simp only [Function.comp]
        rw [if_neg hk]
        have : (l ++ [e]).count k = l.count k := by
          rw [List.count_append]
          simp [List.count_singleton, hk]
        rw [this]
    · have hnel : e ∉ l := fun hc => he ((mem_insKeys e l).mpr hc)
      have hany : ((insKeys l).map (fun k => (k, l.count k))).any
          (fun p => p.1 = e) = false := by
        rw [List.any_eq_false]
        intro p hp
        rcases List.mem_map.mp hp with ⟨k, hk, rfl⟩
        simp only [decide_eq_true_eq]
        intro hke
        exact he (hke ▸ hk)
      rw [if_neg (by simp [hany]), if_neg he, List.map_append]
      congr 1
      · apply List.map_congr_left
        intro k hk
        have hke : k ≠ e := fun hc => he (hc ▸ hk)
        have : (l ++ [e]).count k = l.count k := by
          rw [List.count_append]
          simp [List.count_singleton, hke]
        rw [this]
      · simp only [List.map_cons, List.map_nil]
        have : (l ++ [e]).count e = 1 := by
          rw [List.count_append]
          simp [List.count_eq_zero.mpr hnel]
        rw [this]

theorem pickFirstMax_cons (cnt : String → Nat) (k0 k : String)
    (ks : List String) :
    pickFirstMax cnt k0 (k :: ks) =
      pickFirstMax cnt (if cnt k > cnt k0 then k else k0) ks := rfl

/-- The fold of `max(..., key=...)` returns a key of maximal count, and
among the keys of maximal count the one listed first: everything strictly
before it in the key list has a strictly smaller count. -/
theorem pickFirstMax_spec (cnt : String → Nat) :
    ∀ (ks : List String) (k0 : String),
      pickFirstMax cnt k0 ks ∈ k0 :: ks ∧
      (∀ k ∈ k0 :: ks, cnt k ≤ cnt (pickFirstMax cnt k0 ks)) ∧
      ∃ pre post, k0 :: ks = pre ++ pickFirstMax cnt k0 ks :: post ∧
        ∀ k ∈ pre, cnt k < cnt (pickFirstMax cnt k0 ks) := by
  intro ks
  induction ks with
  | nil =>
    intro k0
    refine ⟨List.mem_cons_self _ _, ?_, [], [], rfl, by simp⟩
    intro k hk
    rcases List.mem_singleton.mp hk with rfl
    exact le_refl _
  | cons k ks ih =>
    intro k0
    rw [pickFirstMax_cons]
    by_cases hk : cnt k > cnt k0
    · rw [if_pos hk]
      obtain ⟨hmem, hbound, pre, post, hdec, hpre⟩ := ih k
      refine ⟨List.mem_cons_of_mem _ hmem, ?_, k0 :: pre, post, ?_, ?_⟩
      · intro m hm
        rcases List.mem_cons.mp hm with rfl | hm2
        · exact le_of_lt (lt_of_lt_of_le hk (hbound k (List.mem_cons_self _ _)))
        · exact hbound m hm2
      · rw [List.cons_append, ← hdec]
      · intro m hm
        rcases List.mem_cons.mp hm with rfl | hm2
        · exact lt_of_lt_of_le hk (hbound k (List.mem_cons_self _ _))
        · exact hpre m hm2
    · rw [if_neg hk]
      have hle : cnt k ≤ cnt k0 := le_of_not_lt hk
      obtain ⟨hmem, hbound, pre, post, hdec, hpre⟩ := ih k0
      refine ⟨?_, ?_, ?_⟩
      · rcases List.mem_cons.mp hmem with h1 | h1
        · rw [h1]
          exact List.mem_cons_self _ _
        · exact List.mem_cons_of_mem _ (List.mem_cons_of_mem _ h1)
      · intro m hm
        rcases List.mem_cons.mp hm with rfl | hm2
        · exact hbound m (List.mem_cons_self _ _)
        · rcases List.mem_cons.mp hm2 with rfl | hm3
          · exact le_trans hle (hbound k0 (List.mem_cons_self _ _))
          · exact hbound m (List.mem_cons_of_mem _ hm3)
      · rcases pre with _ | ⟨p, pre2⟩
        · rcases List.cons.injEq .. ▸ hdec with ⟨h1, h2⟩
          refine ⟨[], k :: ks, ?_, by simp⟩
          simp only [List.nil_append] at hdec ⊢
          rw [← (List.cons.inj hdec).1]
        · have hinj := List.cons.inj (by simpa using hdec)
          refine ⟨k0 :: k :: pre2, post, ?_, ?_⟩
          · rw [List.cons_append, List.cons_append]
            congr 1
            congr 1
            exact hinj.2
          · intro m hm
            have hk0lt : cnt k0 < cnt (pickFirstMax cnt k0 ks) := by
              have := hpre p (List.mem_cons_self _ _)
              rwa [← hinj.1] at this
            rcases List.mem_cons.mp hm with rfl | hm2
            · exact hk0lt
            · rcases List.mem_cons.mp hm2 with rfl | hm3
              · exact lt_of_le_of_lt hle hk0lt
              · exact hpre m (List.mem_cons_of_mem _ hm3)

/-- The pair-valued fold of `maxByCount` on the counts dict agrees with
`pickFirstMax` on the key list when every value is the key's count. -/
theorem maxByCount_map (cnt : String → Nat) :
    ∀ (ks : List String) (k0 : String),
      maxByCount ((k0 :: ks).map (fun k => (k, cnt k))) =
        some (pickFirstMax cnt k0 ks, cnt (pickFirstMax cnt k0 ks)) := by
  have key : ∀ (ks : List String) (k0 : String),
      (ks.map (fun k => (k, cnt k))).foldl
          (fun best q => if q.2 > best.2 then q else best) (k0, cnt k0) =
        (pickFirstMax cnt k0 ks, cnt (pickFirstMax cnt k0 ks)) := by
    intro ks
    induction ks with
    | nil =>
      intro k0
      rfl
    | cons k ks ih =>
      intro k0
      rw [List.map_cons, List.foldl_cons, pickFirstMax_cons]
      by_cases hk : cnt k > cnt k0
      · rw [if_pos hk, if_pos hk]
        exact ih k
      · rw [if_neg hk, if_neg hk]
        exact ih k0
  intro ks k0
  rw [List.map_cons]
  simp only [maxByCount]
  rw [key ks k0]

/-- The last-5 window of a non-empty history is non-empty. -/
theorem lastN_ne_nil {α : Type} {n : Nat} (hn : 0 < n) {l : List α}
    (h : l ≠ []) : lastN n l ≠ [] := by
  unfold lastN
  intro hc
  have hlen := congrArg List.length hc
  rw [List.length_drop] at hlen
  have hl : 0 < l.length := List.length_pos.mpr h
  simp only [List.length_nil] at hlen
  omega

/-! ## C7: the dominant-emotion vote -/

/-- C7: with an empty history `get_dominant_emotion` returns neutral;
otherwise it returns a label of the last-5 window with a maximal
occurrence count, and among the maximal labels the one encountered first:
`insKeys` lists the window's labels in order of first encounter (the
CPython dict insertion order the source iterates), the result splits that
list as `pre ++ result :: post`, and every label in `pre` has a strictly
smaller count. In particular the vote is deterministic, and on the window
`[happy, sad, happy, sad]` it elects "happy". -/
theorem get_dominant_emotion_spec :
    (∀ s : AdapterState, s.emotion_history = [] →
      get_dominant_emotion s = "neutral") ∧
    (∀ s : AdapterState, s.emotion_history ≠ [] →
      get_dominant_emotion s ∈ (lastN 5 s.emotion_history).map (·.emotion) ∧
      (∀ k ∈ (lastN 5 s.emotion_history).map (·.emotion),
        ((lastN 5 s.emotion_history).map (·.emotion)).count k ≤
          ((lastN 5 s.emotion_history).map (·.emotion)).count
            (get_dominant_emotion s)) ∧
      (∃ pre post,
        insKeys ((lastN 5 s.emotion_history).map (·.emotion)) =
          pre ++ get_dominant_emotion s :: post ∧
        ∀ k ∈ pre,
          ((lastN 5 s.emotion_history).map (·.emotion)).count k <
            ((lastN 5 s.emotion_history).map (·.emotion)).count
              (get_dominant_emotion s))) ∧
    get_dominant_emotion ⟨"teacher", "neutral",
      [hEntry "happy", hEntry "sad", hEntry "happy", hEntry "sad"]⟩ =
      "happy" := by
  refine ⟨?_, ?_, by decide⟩
  · intro s h
    unfold get_dominant_emotion
    rw [if_pos h]
  · intro s hne
    set l := (lastN 5 s.emotion_history).map (·.emotion) with hl
    have hlne : l ≠ [] := by
      rw [hl]
      intro hc
      exact lastN_ne_nil (by omega) hne (List.map_eq_nil_iff.mp hc)
    have hkne : insKeys l ≠ [] := by
      rcases hll : l with _ | ⟨a, t⟩
      · exact absurd hll hlne
      · intro hc
        have ha : a ∈ insKeys l := (mem_insKeys a l).mpr (hll ▸ List.mem_cons_self a t)
        rw [hll] at ha
        rw [hc] at ha
        exact absurd ha (List.not_mem_nil a)
    obtain ⟨k0, ks, hkeys⟩ := List.exists_cons_of_ne_nil hkne
    have hdom : get_dominant_emotion s =
        pickFirstMax (fun k => l.count k) k0 ks := by
      unfold get_dominant_emotion
      rw [if_neg hne, ← hl, emotionCounts_eq, hkeys,
        maxByCount_map (fun k => l.count k) ks k0]
    obtain ⟨hmem, hbound, pre, post, hdec, hpre⟩ :=
      pickFirstMax_spec (fun k => l.count k) ks k0
    refine ⟨?_, ?_, pre, post, ?_, ?_⟩
    · rw [hdom]
      have h2 : pickFirstMax (fun k => l.count k) k0 ks ∈ insKeys l := by
        rw [hkeys]
        exact hmem
      exact (mem_insKeys _ l).mp h2
    · intro k hk
      have h2 : k ∈ k0 :: ks := by
        rw [← hkeys]
        exact (mem_insKeys k l).mpr hk
      rw [hdom]
      exact hbound k h2
    · rw [hkeys, hdom]
      exact hdec
    · intro k hk
      rw [hdom]
      exact hpre k hk

/-- C7 witness: the vote spec applied at the empty history. -/
theorem get_dominant_emotion_spec_witness :
    get_dominant_emotion ⟨"witness", "neutral", []⟩ = "neutral" :=
  get_dominant_emotion_spec.1 ⟨"witness", "neutral", []⟩ rfl

/-! ## C1: detect_emotion always yields a valid label -/

/-- C1: on every detector state satisfying the reachable-state invariant
(the last known result and all cached results carry valid labels — it
holds for the initial state, whose last result is neutral and whose cache
is empty, and the second conjunct shows it is preserved), `detect_emotion`
returns a result whose emotion is one of the 8 categories, for every text,
force flag, clock value and remote outcome. The embedding is total: every
failure path of the source (debounce, cache hit, rate-limit denial,
unconfigured client, remote exception, unparseable response) is an
explicit branch that still returns a result dictionary, mirroring that
`detect_emotion` never lets an exception escape to its caller. -/
theorem detect_emotion_never_invalid (s : DetectorState) (text : String)
    (force : Bool) (now : ℤ) (remote : RemoteOutcome) (nowIso : String)
    (h : validState s) :
    validResult (detect_emotion s text force now remote nowIso).1 ∧
    validState (detect_emotion s text force now remote nowIso).2 := by
  by_cases hdb : ¬force = true ∧ now - s.last_analysis_time < s.min_analysis_interval
  · unfold detect_emotion
    rw [if_pos hdb]
    exact ⟨h.1, h⟩
  · unfold detect_emotion
    rw [if_neg hdb]
    rcases hhit : (cacheGet s.cache (normKey text) now s.cache_ttl).1 with _ | em
    · simp only [hhit]
      by_cases hadm : (s.rate_limiter.can_call now).1 = true
      · rw [if_neg (not_not_intro hadm)]
        by_cases hcl : s.client = true
        · rw [if_neg (not_not_intro hcl)]
          rcases remote with _ | resp
          · exact ⟨h.1, h.1, fun e he => h.2 _ (cacheGet_mem_of_mem he)⟩
          · refine ⟨validResult_parseResponse _ _, validResult_parseResponse _ _, ?_⟩
            intro e he
            rcases cacheSet_mem he with h1 | h1
            · exact h.2 _ (cacheGet_mem_of_mem h1)
            · show validResult e.2.1
              rw [h1]
              exact validResult_parseResponse _ _
        · rw [if_pos hcl]
          exact ⟨validResult_getNeutralEmotion _, h.1,
            fun e he => h.2 _ (cacheGet_mem_of_mem he)⟩
      · rw [if_pos hadm]
        exact ⟨h.1, h.1, fun e he => h.2 _ (cacheGet_mem_of_mem he)⟩
    · simp only [hhit]
      obtain ⟨ts, hmem⟩ := cacheGet_some_mem hhit
      exact ⟨h.2 _ hmem, h.1, fun e he => h.2 _ (cacheGet_mem_of_mem he)⟩

/-- C1 witness: the invariant and conclusion at a concrete configured
state holding a cached happy result. -/
theorem detect_emotion_never_invalid_witness :
    validState
      ⟨true, ⟨10, 60, []⟩, [("hello", happyResult, 8)], 30, 5, 0,
        getNeutralEmotion "t0"⟩ ∧
    (validResult (detect_emotion
      ⟨true, ⟨10, 60, []⟩, [("hello", happyResult, 8)], 30, 5, 0,
        getNeutralEmotion "t0"⟩ "hello" false 10 .exn "t1").1 ∧
     validState (detect_emotion
      ⟨true, ⟨10, 60, []⟩, [("hello", happyResult, 8)], 30, 5, 0,
        getNeutralEmotion "t0"⟩ "hello" false 10 .exn "t1").2) :=
  ⟨by decide,
   detect_emotion_never_invalid
     ⟨true, ⟨10, 60, []⟩, [("hello", happyResult, 8)], 30, 5, 0,
       getNeutralEmotion "t0"⟩ "hello" false 10 .exn "t1" (by decide)⟩

/-! ## C3: failure fallbacks of detect_emotion -/

/-- The concrete unconfigured-client state of the C3 counterexample:
no client, empty limiter and cache, last known result happy. -/
def c3State : DetectorState :=
  { client := false, rate_limiter := ⟨10, 60, []⟩, cache := [],
    cache_ttl := 30, min_analysis_interval := 5, last_analysis_time := 0,
    last_emotion := happyResult }

/-- C3 counterexample: with an unconfigured client and an existing
last-known (happy) result, `detect_emotion` does *not* return the
last-known result — it returns a fresh neutral default. -/
theorem detect_emotion_unconfigured_counterexample :
    c3State.client = false ∧
    c3State.last_emotion = happyResult ∧
    (detect_emotion c3State "hello" false 10 .exn "t1").1 ≠ c3State.last_emotion ∧
    (detect_emotion c3State "hello" false 10 .exn "t1").1 = getNeutralEmotion "t1" := by
  decide

/-- C3 amended: past the debounce, cache and admission steps, a remote
exception yields the conversation's last known result; an unconfigured
client yields the canonical neutral default *regardless of the last-known
result*; and an unparseable remote response is treated as a successful
analysis whose value is the neutral default, which becomes the new
last-known result. -/
theorem detect_emotion_failure_fallback (s : DetectorState) (text : String)
    (force : Bool) (now : ℤ) (nowIso : String)
    (hdb : ¬(¬force = true ∧ now - s.last_analysis_time < s.min_analysis_interval))
    (hmiss : (cacheGet s.cache (normKey text) now s.cache_ttl).1 = none)
    (hadm : (s.rate_limiter.can_call now).1 = true) :
    (s.client = false →
      ∀ remote, (detect_emotion s text force now remote nowIso).1 =
        getNeutralEmotion nowIso) ∧
    (s.client = true →
      (detect_emotion s text force now .exn nowIso).1 = s.last_emotion) ∧
    (s.client = true →
      (detect_emotion s text force now (.ok .unparseable) nowIso).1 =
        getNeutralEmotion nowIso ∧
      (detect_emotion s text force now (.ok .unparseable) nowIso).2.last_emotion =
        getNeutralEmotion nowIso) := by
  refine ⟨?_, ?_, ?_⟩
  · intro hcl remote
    unfold detect_emotion
    rw [if_neg hdb]
    simp only [hmiss]
    rw [if_neg (not_not_intro hadm), if_pos (by simp [hcl] : ¬s.client = true)]
  · intro hcl
    unfold detect_emotion
    rw [if_neg hdb]
    simp only [hmiss]
    rw [if_neg (not_not_intro hadm), if_neg (not_not_intro hcl)]
  · intro hcl
    constructor <;>
      (unfold detect_emotion
       rw [if_neg hdb]
       simp only [hmiss]
       rw [if_neg (not_not_intro hadm), if_neg (not_not_intro hcl)]
       rfl)

/-- C3 witness: the fallback theorem at a configured state with a happy
last-known result, exercising the remote-exception branch. -/
theorem detect_emotion_failure_fallback_witness :
    (detect_emotion
      ⟨true, ⟨10, 60, []⟩, [], 30, 5, 0, happyResult⟩
      "hello" false 10 .exn "t1").1 =
      DetectorState.last_emotion ⟨true, ⟨10, 60, []⟩, [], 30, 5, 0, happyResult⟩ :=
  (detect_emotion_failure_fallback
    ⟨true, ⟨10, 60, []⟩, [], 30, 5, 0, happyResult⟩
    "hello" false 10 "t1" (by decide) (by decide) (by decide)).2.1 (by decide)

/-! ## C5: the debounce window -/

/-- The remote outcome producing a sad result, used by C5. -/
def sadRemote : RemoteOutcome :=
  .ok (.parsed ⟨some (.str "sad"), some (.num (mkRat 8 10)),
    some (.num (mkRat 6 10))⟩)

/-- The detector state of the C5 counterexample: configured client, a
fresh cached happy result for "hello", last successful analysis long
ago. -/
def c5State : DetectorState :=
  { client := true, rate_limiter := ⟨10, 60, []⟩,
    cache := [("hello", happyResult, 8)], cache_ttl := 30,
    min_analysis_interval := 5, last_analysis_time := 0,
    last_emotion := getNeutralEmotion "t0" }

/-- C5 counterexample: two non-forced calls 1 second apart (well inside
the 5-second minimum interval) return different results: the first is a
cache hit for "hello" (which does not refresh the last-analysis time), and
the second, for "bye", proceeds to a remote analysis because the time
since the last *successful analysis* exceeds the interval. -/
theorem detect_emotion_interval_counterexample :
    ((11 : ℤ) - 10 < c5State.min_analysis_interval) ∧
    (detect_emotion c5State "hello" false 10 .exn "t1").1 ≠
      (detect_emotion (detect_emotion c5State "hello" false 10 .exn "t1").2
        "bye" false 11 sadRemote "t2").1 := by
  decide

/-- C5 amended: a non-forced call made while the time since the
conversation's last successful analysis is below the minimum interval
returns the last known result and leaves the state untouched; hence two
such calls — whatever their texts, clock values and remote outcomes —
return identical results. -/
theorem detect_emotion_debounce (s : DetectorState) (text : String)
    (now : ℤ) (remote : RemoteOutcome) (nowIso : String)
    (h : now - s.last_analysis_time < s.min_analysis_interval) :
    detect_emotion s text false now remote nowIso = (s.last_emotion, s) ∧
    (∀ text2 now2 remote2 iso2,
      now2 - s.last_analysis_time < s.min_analysis_interval →
      (detect_emotion (detect_emotion s text false now remote nowIso).2
        text2 false now2 remote2 iso2).1 =
      (detect_emotion s text false now remote nowIso).1) := by
  have h1 : detect_emotion s text false now remote nowIso = (s.last_emotion, s) := by
    have hcond : ¬false = true ∧ now - s.last_analysis_time < s.min_analysis_interval :=
      ⟨by simp, h⟩
    unfold detect_emotion
    rw [if_pos hcond]
  refine ⟨h1, ?_⟩
  intro text2 now2 remote2 iso2 h2
  rw [h1]
  have hcond2 : ¬false = true ∧ now2 - s.last_analysis_time < s.min_analysis_interval :=
    ⟨by simp, h2⟩
  unfold detect_emotion
  rw [if_pos hcond2]

/-- C5 witness: the debounce theorem at a concrete state 3 seconds after
its last successful analysis, with two debounced calls 1 second apart. -/
theorem detect_emotion_debounce_witness :
    detect_emotion c3State "hello" false 3 .exn "t1" =
      (c3State.last_emotion, c3State) ∧
    (∀ text2 now2 remote2 iso2,
      now2 - c3State.last_analysis_time < c3State.min_analysis_interval →
      (detect_emotion (detect_emotion c3State "hello" false 3 .exn "t1").2
        text2 false now2 remote2 iso2).1 =
      (detect_emotion c3State "hello" false 3 .exn "t1").1) :=
  detect_emotion_debounce c3State "hello" 3 .exn "t1" (by decide)

/-! ## C9: the limiter's admission check -/

/-- C9 counterexample: `can_call` is not free of side effects on the
recorded call list — with one expired call recorded (`window = 60`,
call at 0, now 100), `can_call` prunes the list from `[0]` to `[]`. -/
theorem can_call_state_counterexample :
    (RateLimiter.calls ⟨1, 60, [0]⟩ = [0]) ∧
    (RateLimiter.can_call ⟨1, 60, [0]⟩ 100).2.calls ≠ [0] := by decide

/-- C9 amended: `can_call` replaces the recorded call list by its
in-window sublist — it may remove expired entries but never adds any, and
never consumes a slot: `record_call` alone appends, and the prune is
semantically invisible, since any `can_call` at the same or a later
instant returns exactly what it would have returned on the unpruned
state. -/
theorem can_call_consumes_no_slot (r : RateLimiter) (now t2 : ℤ)
    (h : now ≤ t2) :
    (r.can_call now).2.calls =
      r.calls.filter (fun t => now - t < r.time_window) ∧
    ((r.can_call now).2.calls.Sublist r.calls) ∧
    (r.record_call now).calls = r.calls ++ [now] ∧
    (r.can_call now).2.can_call t2 = r.can_call t2 := by
  refine ⟨rfl, List.filter_sublist _, rfl, ?_⟩
  unfold RateLimiter.can_call
  simp only [List.filter_filter]
  have hf : ∀ t ∈ r.calls,
      (decide (t2 - t < r.time_window) && decide (now - t < r.time_window)) =
      decide (t2 - t < r.time_window) := by
    intro t _
    by_cases h2 : t2 - t < r.time_window
    · have h1 : now - t < r.time_window := lt_of_le_of_lt (by omega) h2
      simp [h1, h2]
    · simp [h2]
  rw [List.filter_congr hf]

/-- C9 witness: the amended theorem at a limiter with one fresh and one
expired call, checked at `now = 100` and later at `t2 = 130`. -/
theorem can_call_consumes_no_slot_witness :
    (RateLimiter.can_call ⟨2, 60, [0, 90]⟩ 100).2.calls =
      List.filter (fun t => (100 : ℤ) - t < 60) [0, 90] ∧
    ((RateLimiter.can_call ⟨2, 60, [0, 90]⟩ 100).2.calls.Sublist [0, 90]) ∧
    (RateLimiter.record_call ⟨2, 60, [0, 90]⟩ 100).calls = [0, 90] ++ [100] ∧
    (RateLimiter.can_call ⟨2, 60, [0, 90]⟩ 100).2.can_call 130 =
      RateLimiter.can_call ⟨2, 60, [0, 90]⟩ 130 :=
  can_call_consumes_no_slot ⟨2, 60, [0, 90]⟩ 100 130 (by decide)

/-! ## C6: escalation detection -/

/-- C6: `should_check_in` is true iff the history has at least 3 entries
and the 3 most recent labels are all in the fixed negative set; history
`[sad, angry, anxious]` escalates, `[sad, angry, happy]` does not, and any
history shorter than 3 never escalates. -/
theorem should_check_in_spec :
    (∀ s : AdapterState, should_check_in s = true ↔
      (3 ≤ s.emotion_history.length ∧
        ∀ e ∈ lastN 3 s.emotion_history, e.emotion ∈ negativeEmotions)) ∧
    should_check_in
      ⟨"teacher", "neutral", [hEntry "sad", hEntry "angry", hEntry "anxious"]⟩ = true ∧
    should_check_in
      ⟨"teacher", "neutral", [hEntry "sad", hEntry "angry", hEntry "happy"]⟩ = false ∧
    (∀ s : AdapterState, s.emotion_history.length < 3 →
      should_check_in s = false) := by
  have key : ∀ s : AdapterState, should_check_in s = true ↔
      (3 ≤ s.emotion_history.length ∧
        ∀ e ∈ lastN 3 s.emotion_history, e.emotion ∈ negativeEmotions) := by
    intro s
    unfold should_check_in
    by_cases h : s.emotion_history.length < 3
    · rw [if_pos h]
      simp only [Bool.false_eq_true, false_iff, not_and]
      intro hle
      omega
    · rw [if_neg h]
      have hlen : 3 ≤ s.emotion_history.length := le_of_not_lt h
      simp only [List.all_eq_true, List.mem_map, forall_exists_index, and_imp,
        forall_apply_eq_imp_iff₂]
      constructor
      · intro ha
        exact ⟨hlen, fun e he => List.elem_iff.mp (ha e he)⟩
      · intro ha e he
        exact List.elem_iff.mpr (ha.2 e he)
  refine ⟨key, by decide, by decide, ?_⟩
  intro s h
  have := key s
  rcases hb : should_check_in s with _ | _
  · rfl
  · rcases (this.mp hb) with ⟨hle, _⟩
    omega

/-- C6 witness: the escalation spec applied at an empty history. -/
theorem should_check_in_spec_witness :
    should_check_in ⟨"witness", "neutral", []⟩ = false :=
  should_check_in_spec.2.2.2 ⟨"witness", "neutral", []⟩ (by decide)

/-! ## C4: adapt_instructions and state -/

/-- C4 counterexample: `adapt_instructions` is not side-effect free — a
high-confidence call on a fresh adapter appends to `emotion_history` and
rewrites `current_emotion`. -/
theorem adapt_instructions_mutation_counterexample :
    (initAdapter "teacher").emotion_history = [] ∧
    (initAdapter "teacher").current_emotion = "neutral" ∧
    (adapt_instructions (initAdapter "teacher") "Base."
        ⟨some "happy", some (mkRat 8 10), none⟩ (mkRat 6 10)).2.emotion_history ≠ [] ∧
    (adapt_instructions (initAdapter "teacher") "Base."
        ⟨some "happy", some (mkRat 8 10), none⟩ (mkRat 6 10)).2.current_emotion ≠ "neutral" := by
  decide

/-- C4 amended: the *returned string* of `adapt_instructions` is a pure
function of (base instructions, emotion data, threshold) and the agent
type — it does not depend on `current_emotion` or `emotion_history` — and
since the call never changes the agent type, calling it twice with
identical inputs returns identical strings; the call does, however, mutate
`current_emotion` and `emotion_history` whenever the confidence gate
passes (see the counterexample). -/
theorem adapt_instructions_output_pure (s1 s2 : AdapterState) (b : String)
    (d : EmotionData) (thr : ℚ) (h : s1.agent_type = s2.agent_type) :
    (adapt_instructions s1 b d thr).1 = (adapt_instructions s2 b d thr).1 ∧
    (adapt_instructions s1 b d thr).2.agent_type = s1.agent_type ∧
    (adapt_instructions (adapt_instructions s1 b d thr).2 b d thr).1 =
      (adapt_instructions s1 b d thr).1 := by
  have hout : ∀ s : AdapterState, s.agent_type = s2.agent_type →
      (adapt_instructions s b d thr).1 =
        (if d.confidence.getD 0 < thr then b
         else if (getAdaptation s2.agent_type (d.emotion.getD "neutral")).getD "" = "" then b
         else buildAdapted b (d.emotion.getD "neutral") (d.confidence.getD 0)
           ((getAdaptation s2.agent_type (d.emotion.getD "neutral")).getD "")) := by
    intro s hs
    simp only [adapt_instructions, hs]
    split
    · rfl
    · split <;> rfl
  have hat : ∀ s : AdapterState,
      (adapt_instructions s b d thr).2.agent_type = s.agent_type := by
    intro s
    simp only [adapt_instructions]
    split
    · rfl
    · split <;> rfl
  refine ⟨by rw [hout s1 h, hout s2 rfl], hat s1, ?_⟩
  rw [hout _ ((hat s1).trans h), hout s1 h]

/-- C4 witness: identical inputs on two adapters of the same agent type
with different histories give identical output strings. -/
theorem adapt_instructions_output_pure_witness :
    (adapt_instructions ⟨"teacher", "neutral", []⟩ "Base."
        ⟨some "happy", some (mkRat 8 10), none⟩ (mkRat 6 10)).1 =
      (adapt_instructions ⟨"teacher", "sad", [hEntry "sad"]⟩ "Base."
        ⟨some "happy", some (mkRat 8 10), none⟩ (mkRat 6 10)).1 :=
  (adapt_instructions_output_pure ⟨"teacher", "neutral", []⟩
    ⟨"teacher", "sad", [hEntry "sad"]⟩ "Base."
    ⟨some "happy", some (mkRat 8 10), none⟩ (mkRat 6 10) (by decide)).1

/-! ## C8: confidence gating and template selection -/

/-- C8: below the threshold the base instructions come back unchanged;
at or above it, with a non-empty persona × label template, the result is
exactly the base instructions followed by the directive block
(`buildAdapted`: the upper-cased label, the confidence as a rounded
percentage, and the template text); with no template (or the empty one,
which the source's `if not adaptation` also rejects) the base instructions
come back unchanged. -/
theorem adapt_instructions_gating (s : AdapterState) (b : String)
    (d : EmotionData) (thr : ℚ) :
    (d.confidence.getD 0 < thr → (adapt_instructions s b d thr).1 = b) ∧
    (¬ d.confidence.getD 0 < thr →
      ∀ tmpl, getAdaptation s.agent_type (d.emotion.getD "neutral") = some tmpl →
        tmpl ≠ "" →
        (adapt_instructions s b d thr).1 =
          buildAdapted b (d.emotion.getD "neutral") (d.confidence.getD 0) tmpl) ∧
    (¬ d.confidence.getD 0 < thr →
      (getAdaptation s.agent_type (d.emotion.getD "neutral")).getD "" = "" →
      (adapt_instructions s b d thr).1 = b) := by
  refine ⟨?_, ?_, ?_⟩
  · intro hc
    simp only [adapt_instructions, if_pos hc]
  · intro hc tmpl htm hne
    simp only [adapt_instructions, if_neg hc, htm, Option.getD_some, if_neg hne]
  · intro hc he
    simp only [adapt_instructions, if_neg hc, he, if_pos]

set_option maxRecDepth 8000

/-- C8 witness: the gating theorem at a teacher adapter, a happy result of
confidence 0.8, threshold 0.6, exercising the matching-template branch. -/
theorem adapt_instructions_gating_witness :
    (adapt_instructions (initAdapter "teacher") "Base."
        ⟨some "happy", some (mkRat 8 10), none⟩ (mkRat 6 10)).1 =
      buildAdapted "Base." "happy" (mkRat 8 10)
        ((getAdaptation "teacher" "happy").getD "") :=
  (adapt_instructions_gating (initAdapter "teacher") "Base."
      ⟨some "happy", some (mkRat 8 10), none⟩ (mkRat 6 10)).2.1
    (by decide) ((getAdaptation "teacher" "happy").getD "") (by decide) (by decide)

/-! ## C10: only gate-passing results reach the history -/

theorem adapt_history_step (s : AdapterState) (b : String) (d : EmotionData)
    (thr : ℚ) :
    ∀ e ∈ (adapt_instructions s b d thr).2.emotion_history,
      e ∈ s.emotion_history ∨
        (e.emotion = d.emotion.getD "neutral" ∧
         e.confidence = d.confidence.getD 0 ∧ thr ≤ e.confidence) := by
  intro e he
  by_cases hc : d.confidence.getD 0 < thr
  · simp only [adapt_instructions, if_pos hc] at he
    exact Or.inl he
  · simp only [adapt_instructions, if_neg hc] at he
    have he3 : e ∈ s.emotion_history ++
        [{ emotion := d.emotion.getD "neutral",
           confidence := d.confidence.getD 0,
           timestamp := d.detected_at : HistEntry }] := by
      split at he
      · split at he
        · exact List.mem_of_mem_drop he
        · exact he
      · split at he
        · exact List.mem_of_mem_drop he
        · exact he
    rcases List.mem_append.mp he3 with h5 | h5
    · exact Or.inl h5
    · rcases List.mem_singleton.mp h5 with rfl
      exact Or.inr ⟨rfl, rfl, le_of_not_lt hc⟩

theorem applyCalls_history (calls : List (String × EmotionData × ℚ)) :
    ∀ (s : AdapterState), ∀ e ∈ (applyCalls s calls).emotion_history,
      e ∈ s.emotion_history ∨ ∃ c ∈ calls,
        e.emotion = c.2.1.emotion.getD "neutral" ∧
        e.confidence = c.2.1.confidence.getD 0 ∧ c.2.2 ≤ e.confidence := by
  induction calls with
  | nil =>
    intro s e he
    exact Or.inl he
  | cons c cs ih =>
    intro s e he
    have he2 : e ∈ (applyCalls (adapt_instructions s c.1 c.2.1 c.2.2).2 cs).emotion_history := he
    rcases ih _ e he2 with h1 | ⟨c2, hc2, h3⟩
    · rcases adapt_history_step s c.1 c.2.1 c.2.2 e h1 with h4 | h4
      · exact Or.inl h4
      · exact Or.inr ⟨c, List.mem_cons_self _ _, h4.1, h4.2.1, h4.2.1 ▸ h4.2.2⟩
    · exact Or.inr ⟨c2, List.mem_cons_of_mem _ hc2, h3⟩

/-- C10: low-confidence results are invisible to the conversation state —
a call whose confidence is below the threshold returns the base
instructions and leaves the adapter (current emotion and history)
untouched, and every history entry of an adapter built up from a fresh
start by any trace of `adapt_instructions` calls records the emotion and
confidence of some call whose confidence met that call's threshold; since
`get_dominant_emotion` and `should_check_in` read only `emotion_history`,
they are computed only over gate-passing results. -/
theorem emotion_history_gate_invariant :
    (∀ (s : AdapterState) (b : String) (d : EmotionData) (thr : ℚ),
      d.confidence.getD 0 < thr → adapt_instructions s b d thr = (b, s)) ∧
    (∀ (t : String) (calls : List (String × EmotionData × ℚ)),
      ∀ e ∈ (applyCalls (initAdapter t) calls).emotion_history,
        ∃ c ∈ calls, e.emotion = c.2.1.emotion.getD "neutral" ∧
          e.confidence = c.2.1.confidence.getD 0 ∧ c.2.2 ≤ e.confidence) := by
  constructor
  · intro s b d thr hc
    simp only [adapt_instructions, if_pos hc]
  · intro t calls e he
    rcases applyCalls_history calls (initAdapter t) e he with h | h
    · simp [initAdapter] at h
    · exact h

/-! ## C2: parsing, coercion, and the missing clamp -/

/-- A remote payload whose confidence parses as 1.5, used for C2. -/
def overConfPayload : ParsedData :=
  ⟨some (.str "happy"), some (.num (mkRat 3 2)), some (.num (mkRat 1 2))⟩

/-- C2 counterexample: the parsed confidence is *not* clamped into
`[0, 1]` — a payload reporting confidence 1.5 comes back as 1.5. -/
theorem parse_response_clamp_counterexample :
    (parseResponse (.parsed overConfPayload) "t1").confidence = mkRat 3 2 ∧
    ¬ (parseResponse (.parsed overConfPayload) "t1").confidence ≤ 1 := by
  decide

/-- C2 amended: for a JSON-parsed payload, confidence and intensity are
coerced to float (with default 0.5 and neutral fallback when `float(...)`
raises) and returned *unclamped*; an out-of-taxonomy label is replaced
with neutral before the valence/arousal lookup, so the label — but not
confidence or intensity — is always in range. -/
theorem parse_response_coercion_spec (d : ParsedData) (iso : String) :
    (∀ c i : ℚ, d.confidence.getD (.num (mkRat 1 2)) = .num c →
      d.intensity.getD (.num (mkRat 1 2)) = .num i →
      parseResponse (.parsed d) iso =
        { emotion := validatedLabel d, confidence := c, intensity := i,
          valence := (get_valence_arousal (validatedLabel d)).valence,
          arousal := (get_valence_arousal (validatedLabel d)).arousal,
          detected_at := iso }) ∧
    ((d.confidence.getD (.num (mkRat 1 2)) = .notCoercible ∨
      d.intensity.getD (.num (mkRat 1 2)) = .notCoercible) →
      parseResponse (.parsed d) iso = getNeutralEmotion iso) ∧
    validatedLabel d ∈ EMOTION_CATEGORIES ∧
    (∀ s, d.emotion = some (.str s) → is_valid_emotion s = false →
      validatedLabel d = "neutral") := by
  refine ⟨?_, ?_, ?_, ?_⟩
  · intro c i hc hi
    simp only [parseResponse, hc, hi]
  · intro h
    rcases h with hc | hi
    · simp only [parseResponse, hc]
    · rcases hc : d.confidence.getD (.num (mkRat 1 2)) with c | _
      · simp only [parseResponse, hc, hi]
      · simp only [parseResponse, hc]
  · exact validatedLabel_mem d
  · intro s hs hnv
    unfold validatedLabel
    rw [hs]
    simp [hnv]

/-- C2 witness: the coercion spec applied at the confidence-1.5 payload. -/
theorem parse_response_coercion_spec_witness :
    parseResponse (.parsed overConfPayload) "t1" =
      { emotion := validatedLabel overConfPayload,
        confidence := mkRat 3 2, intensity := mkRat 1 2,
        valence := (get_valence_arousal (validatedLabel overConfPayload)).valence,
        arousal := (get_valence_arousal (validatedLabel overConfPayload)).arousal,
        detected_at := "t1" } :=
  (parse_response_coercion_spec overConfPayload "t1").1 (mkRat 3 2) (mkRat 1 2)
    (by decide) (by decide)

/-- C10 witness: the invariant applied to the one-call trace that records
a sad result of confidence 0.9 against threshold 0.6. -/
theorem emotion_history_gate_invariant_witness :
    ∃ c ∈ [("Base.", (⟨some "sad", some (mkRat 9 10), none⟩ : EmotionData), mkRat 6 10)],
      (⟨"sad", mkRat 9 10, none⟩ : HistEntry).emotion = c.2.1.emotion.getD "neutral" ∧
      (⟨"sad", mkRat 9 10, none⟩ : HistEntry).confidence = c.2.1.confidence.getD 0 ∧
      c.2.2 ≤ (⟨"sad", mkRat 9 10, none⟩ : HistEntry).confidence :=
  emotion_history_gate_invariant.2 "teacher"
    [("Base.", ⟨some "sad", some (mkRat 9 10), none⟩, mkRat 6 10)]
    ⟨"sad", mkRat 9 10, none⟩ (by decide)

end Mirage
